import Mathlib

/-!
Verification of the PrusaSlicer sub-layer Z anti-aliasing post-processor
(`prusaslicer_anti_alias_z.py`), as a shallow embedding in Lean 4.

Modelling conventions:
* G-code text lines are `List Char`; passthrough is list (byte) identity.
* Python floats are modelled as exact rationals `ℚ`; decimal literals of the
  source (`1e-6`, `1e-9`, `1e-12`, `0.01`, `2.0`) become the corresponding
  exact rationals.
* `math.hypot` (a square root) is not rational; the splitter only ever uses
  the distance `d` through the decidable comparisons `d ≤ s`, `d = 0` and
  `⌈d / s⌉`, all of which are expressed exactly through the squared distance
  (`d ≤ s ↔ 0 ≤ s ∧ d² ≤ s²` and, for `s > 0`, `⌈d/s⌉` is the least `n` with
  `d² ≤ n²·s²`).  Theorems about the splitter state the specification with
  `Real.sqrt` and prove it of this square-free executable form.
* The external mesh loader (trimesh) is a collaborator: the projector is
  built from an arbitrary triangle list, exactly as `VerticalProjector.__init__`
  consumes `mesh.triangles` / `mesh.bounds`.
-/

namespace AAZ

/- Batteries marks the `Rat` field operations `@[irreducible]`; the kernel
ignores reducibility, so making them semireducible again only lets `decide`
evaluate concrete rational arithmetic (used for the concrete instances and
counterexamples below). -/
attribute [local semireducible] Rat.add Rat.mul Rat.inv Rat.sub Rat.ofScientific

/-! ## Characters and whitespace (Python `str.strip`, `\s`, `.upper()`, `.lower()`) -/

def isWsChar (c : Char) : Bool :=
  c = ' ' || c = '\t' || c = '\n' || c = '\r' || c = '\x0b' || c = '\x0c'

def asciiUpper (c : Char) : Char :=
  if 'a' ≤ c ∧ c ≤ 'z' then Char.ofNat (c.toNat - 32) else c

def asciiLower (c : Char) : Char :=
  if 'A' ≤ c ∧ c ≤ 'Z' then Char.ofNat (c.toNat + 32) else c

def skipWs (l : List Char) : List Char := l.dropWhile isWsChar

def trim (l : List Char) : List Char :=
  ((l.dropWhile isWsChar).reverse.dropWhile isWsChar).reverse

/-- `strip_comment`: `line.split(";", 1)[0].strip()`. -/
def strip_comment (l : List Char) : List Char :=
  trim (l.takeWhile (fun c => c != ';'))

def isDigitC (c : Char) : Bool := '0' ≤ c && c ≤ '9'

def isAsciiAlpha (c : Char) : Bool :=
  ('A' ≤ c && c ≤ 'Z') || ('a' ≤ c && c ≤ 'z')

def natOfDigits (ds : List Char) : ℕ :=
  ds.foldl (fun a c => 10 * a + (c.toNat - 48)) 0

/-! ## Floating-point token grammar
`[-+]?(?:\d+(?:\.\d*)?|\.\d+)(?:[eE][-+]?\d+)?`, parsed greedily exactly as
the regex engine matches it (the exponent part is consumed only when `[eE]`
is followed by an optional sign and at least one digit). -/

/-- Parse an exponent `[eE][-+]?\d+`; returns its value and consumed length. -/
def parseExpPart (l : List Char) : Option (ℤ × ℕ) :=
  match l with
  | [] => none
  | c :: r =>
    if c = 'e' || c = 'E' then
      match r with
      | '+' :: r2 =>
        let ds := r2.takeWhile isDigitC
        if ds = [] then none else some ((natOfDigits ds : ℤ), 2 + ds.length)
      | '-' :: r2 =>
        let ds := r2.takeWhile isDigitC
        if ds = [] then none else some (-(natOfDigits ds : ℤ), 2 + ds.length)
      | _ =>
        let ds := r.takeWhile isDigitC
        if ds = [] then none else some ((natOfDigits ds : ℤ), 1 + ds.length)
    else none

/-- Parse one float token at the head of `l`; returns its exact rational value
and the number of characters consumed. -/
def parseFloatTok (l : List Char) : Option (ℚ × ℕ) :=
  let sgn : ℚ × List Char × ℕ :=
    match l with
    | '+' :: r => (1, r, 1)
    | '-' :: r => (-1, r, 1)
    | _ => (1, l, 0)
  let s := sgn.1
  let l1 := sgn.2.1
  let k0 := sgn.2.2
  let ds := l1.takeWhile isDigitC
  let r1 := l1.drop ds.length
  let core : Option (ℚ × ℕ) :=
    if ds = [] then
      match r1 with
      | '.' :: r2 =>
        let fs := r2.takeWhile isDigitC
        if fs = [] then none
        else some ((natOfDigits fs : ℚ) / (10 : ℚ) ^ fs.length, 1 + fs.length)
      | _ => none
    else
      match r1 with
      | '.' :: r2 =>
        let fs := r2.takeWhile isDigitC
        some ((natOfDigits ds : ℚ) + (natOfDigits fs : ℚ) / (10 : ℚ) ^ fs.length,
              ds.length + 1 + fs.length)
      | _ => some ((natOfDigits ds : ℚ), ds.length)
  match core with
  | none => none
  | some (m, kc) =>
    match parseExpPart (l1.drop kc) with
    | some (ex, ke) => some (s * m * (10 : ℚ) ^ ex, k0 + kc + ke)
    | none => some (s * m, k0 + kc)

/-- `parse_params` scan loop: `([A-Za-z])(FLOAT)` matches, left to right and
non-overlapping, kept in occurrence order (dict assignment order).  The scan
consumes at least the letter each step, so `l.length` fuel is exact; the fuel
keeps the recursion structural. -/
def scanParamsAux : ℕ → List Char → List (Char × ℚ)
  | 0, _ => []
  | _, [] => []
  | fuel + 1, c :: rest =>
    if isAsciiAlpha c then
      match parseFloatTok rest with
      | some (q, k) => (asciiUpper c, q) :: scanParamsAux fuel (rest.drop k)
      | none => scanParamsAux fuel rest
    else scanParamsAux fuel rest

def parse_params (l : List Char) : List (Char × ℚ) :=
  scanParamsAux l.length l

/-- Dictionary lookup: in `parse_params` a later occurrence of the same letter
overwrites an earlier one, so lookup takes the last matching entry. -/
def getParam (ps : List (Char × ℚ)) (c : Char) : Option ℚ :=
  ((ps.filter (fun p => p.1 == c)).getLast?).map (fun p => p.2)

/-! ## PrusaSlicer metadata comment matchers
`^\s*;\s*Z\s*:\s*(FLOAT)\s*$`, `^\s*;\s*HEIGHT\s*:\s*(FLOAT)\s*$`,
`^\s*;\s*TYPE\s*:\s*(.+?)\s*$`, all case-insensitive. -/

/-- Consume `tag` case-insensitively at the head of `l`. -/
def dropCI (tag l : List Char) : Option (List Char) :=
  match tag, l with
  | [], rest => some rest
  | _ :: _, [] => none
  | t :: ts, c :: cs => if asciiUpper c = asciiUpper t then dropCI ts cs else none

/-- Match `^\s*;\s*TAG\s*:\s*(FLOAT)\s*$`. -/
def matchSemiFloat (tag ln : List Char) : Option ℚ :=
  match skipWs ln with
  | [] => none
  | c :: r =>
    if c = ';' then
      match dropCI tag (skipWs r) with
      | none => none
      | some r2 =>
        match skipWs r2 with
        | ':' :: r3 =>
          let r4 := skipWs r3
          match parseFloatTok r4 with
          | some (q, k) => if skipWs (r4.drop k) = [] then some q else none
          | none => none
        | _ => none
    else none

def matchLayerZ (ln : List Char) : Option ℚ := matchSemiFloat ['Z'] ln

def matchLayerH (ln : List Char) : Option ℚ :=
  matchSemiFloat ['H', 'E', 'I', 'G', 'H', 'T'] ln

/-- Match `^\s*;\s*TYPE\s*:\s*(.+?)\s*$` (the capture, stripped).  The lazy
capture needs at least one non-newline character after the colon; the
leading `\s*` and trailing `\s*$` strip the surrounding whitespace, and the
code strips the group once more, so the stored value is the trimmed rest. -/
def matchTYPE (ln : List Char) : Option (List Char) :=
  match skipWs ln with
  | [] => none
  | c :: r =>
    if c = ';' then
      match dropCI ['T', 'Y', 'P', 'E'] (skipWs r) with
      | none => none
      | some r2 =>
        match skipWs r2 with
        | ':' :: r3 => if r3.any (fun d => d != '\n') then some (trim r3) else none
        | _ => none
    else none

/-! ## `fmt_float`: `f"{x:.5f}".rstrip("0").rstrip(".")`, `"0"` fallback -/

/-- Round to the nearest integer, ties to even (the rounding of `%.5f`). -/
def roundHalfEven (q : ℚ) : ℤ :=
  let f := Int.floor q
  let r := q - f
  if r < 1 / 2 then f
  else if 1 / 2 < r then f + 1
  else if f % 2 = 0 then f else f + 1

def natDigits (n : ℕ) : List Char := Nat.toDigits 10 n

/-- Strip all trailing occurrences of `c` (Python `str.rstrip(c)`). -/
def rstripC (c : Char) (l : List Char) : List Char :=
  (l.reverse.dropWhile (fun d => d == c)).reverse

/-- `fmt_float`: fixed 5-decimal rendering of the rational, trailing zeros and
a trailing decimal point stripped.  `%.5f` prints the sign of the value even
when all printed digits are zero, hence the sign test on `x` itself. -/
def fmt_float (x : ℚ) : List Char :=
  let n := roundHalfEven (x * 100000)
  let a := n.natAbs
  let sign : List Char := if x < 0 then ['-'] else []
  let fd := natDigits (a % 100000)
  let s := sign ++ natDigits (a / 100000) ++
    '.' :: (List.replicate (5 - fd.length) '0' ++ fd)
  let s2 := rstripC '.' (rstripC '0' s)
  if s2 = [] then ['0'] else s2

/-! ## Geometry: triangles, the XY spatial grid, the vertical projector -/

structure P3 where
  x : ℚ
  y : ℚ
  z : ℚ
deriving DecidableEq

structure Tri where
  a : P3
  b : P3
  c : P3
deriving DecidableEq

/-- `VerticalProjector._barycentric_2d`: 2D barycentric coordinates of
`(px, py)` in the triangle with XY-projected vertices `(a1,a2) (b1,b2) (c1,c2)`;
`none` when the projected triangle is degenerate (`|den| < 1e-12`) or some
coordinate is below `-1e-9`.  Returns `(w, u, v)`. -/
def barycentric_2d (px py a1 a2 b1 b2 c1 c2 : ℚ) : Option (ℚ × ℚ × ℚ) :=
  let v0x := b1 - a1
  let v0y := b2 - a2
  let v1x := c1 - a1
  let v1y := c2 - a2
  let v2x := px - a1
  let v2y := py - a2
  let den := v0x * v1y - v1x * v0y
  if |den| < 1 / 10 ^ 12 then none
  else
    let inv := 1 / den
    let u := (v2x * v1y - v1x * v2y) * inv
    let v := (v0x * v2y - v2x * v0y) * inv
    let w := 1 - u - v
    if u < -(1 / 10 ^ 9) ∨ v < -(1 / 10 ^ 9) ∨ w < -(1 / 10 ^ 9) then none
    else some (w, u, v)

/-- The grid: `dict[(ix, iy)] -> list[tri_index]` with insertion order. -/
def Grid : Type := List ((ℤ × ℤ) × List ℕ)

def gridGet (g : Grid) (k : ℤ × ℤ) : List ℕ :=
  match g with
  | [] => []
  | (k', l) :: rest => if k' = k then l else gridGet rest k

/-- `self.grid.setdefault((ix, iy), []).append(i)`. -/
def gridAppend (g : Grid) (k : ℤ × ℤ) (i : ℕ) : Grid :=
  match g with
  | [] => [(k, [i])]
  | (k', l) :: rest =>
    if k' = k then (k', l ++ [i]) :: rest else (k', l) :: gridAppend rest k i

def intRange (a b : ℤ) : List ℤ :=
  (List.range (b + 1 - a).toNat).map (fun j => a + (j : ℤ))

def min3 (p q r : ℚ) : ℚ := min p (min q r)

def max3 (p q r : ℚ) : ℚ := max p (max q r)

/-- Insert one triangle (index `i`) into every grid cell its XY bounding box
overlaps, exactly as the nested `for ix in range(ix0, ix1+1)` loops. -/
def gridInsertTri (cell minx miny : ℚ) (g : Grid) (i : ℕ) (t : Tri) : Grid :=
  let ix0 := Int.floor ((min3 t.a.x t.b.x t.c.x - minx) / cell)
  let iy0 := Int.floor ((min3 t.a.y t.b.y t.c.y - miny) / cell)
  let ix1 := Int.floor ((max3 t.a.x t.b.x t.c.x - minx) / cell)
  let iy1 := Int.floor ((max3 t.a.y t.b.y t.c.y - miny) / cell)
  (intRange ix0 ix1).foldl
    (fun g1 ix => (intRange iy0 iy1).foldl (fun g2 iy => gridAppend g2 (ix, iy) i) g1)
    g

def buildGrid (cell minx miny : ℚ) (tris : List Tri) : Grid :=
  (tris.enum).foldl (fun g p => gridInsertTri cell minx miny g p.1 p.2) []

structure Projector where
  tris : List Tri
  minx : ℚ
  miny : ℚ
  cell : ℚ
  grid : Grid

/-- `VerticalProjector.__init__`: the mesh bounds' minimum X/Y come from the
external mesh library (the minimum over all triangle vertices); the grid is
bucketed at `cell_size`.  The constructor refuses `cell_size ≤ 0`. -/
def mkProjector (tris : List Tri) (cell : ℚ) : Projector :=
  let xs := tris.foldr (fun t acc => t.a.x :: t.b.x :: t.c.x :: acc) []
  let ys := tris.foldr (fun t acc => t.a.y :: t.b.y :: t.c.y :: acc) []
  let minx := match xs with | [] => 0 | v :: vs => vs.foldl min v
  let miny := match ys with | [] => 0 | v :: vs => vs.foldl min v
  { tris := tris, minx := minx, miny := miny, cell := cell,
    grid := buildGrid cell minx miny tris }

/-- The candidate indices for a query: the query's home cell plus its 8
neighbors, `dx` outer and `dy` inner, in `(-1, 0, 1)` order. -/
def candidatesOf (p : Projector) (x y : ℚ) : List ℕ :=
  let ix := Int.floor ((x - p.minx) / p.cell)
  let iy := Int.floor ((y - p.miny) / p.cell)
  ([(-1), 0, 1] : List ℤ).foldr
    (fun dx acc =>
      ([(-1), 0, 1] : List ℤ).foldr (fun dy acc2 => gridGet p.grid (ix + dx, iy + dy) ++ acc2) [] ++ acc)
    []

/-- Interpolated Z of triangle `t` at barycentric weights `(w, u, v)`. -/
def interpZ (t : Tri) (w u v : ℚ) : ℚ := w * t.a.z + u * t.b.z + v * t.c.z

/-- The loop body of `z_hit_above`: fold one candidate triangle index into
the running best (smallest kept) hit. -/
def zStep (p : Projector) (x y z0 z_max : ℚ) (z_best : Option ℚ) (ti : ℕ) :
    Option ℚ :=
  match p.tris.get? ti with
  | none => z_best
  | some t =>
    match barycentric_2d x y t.a.x t.a.y t.b.x t.b.y t.c.x t.c.y with
    | none => z_best
    | some (w, u, v) =>
      let z := interpZ t w u v
      if z < z0 - 1 / 10 ^ 9 then z_best
      else if z > z_max + 1 / 10 ^ 9 then z_best
      else
        match z_best with
        | none => some z
        | some zb => if z < zb then some z else z_best

/-- `VerticalProjector.z_hit_above`: smallest interpolated surface Z above
`z0` (tolerance `1e-9`) and below `z0 + max_dist` (tolerance `1e-9`) among
the candidate triangles containing `(x, y)` in XY projection. -/
def z_hit_above (p : Projector) (x y z0 max_dist : ℚ) : Option ℚ :=
  let cand := candidatesOf p x y
  if cand = [] then none
  else cand.foldl (zStep p x y z0 (z0 + max_dist)) none

/-! ## Segment splitting -/

structure SubMove where
  x : ℚ
  y : ℚ
  e : ℚ
  f : Option ℚ
deriving DecidableEq

/-- Least `n : ℕ` with `r ≤ n^2`, by upward search with explicit fuel. -/
def sqCeilFrom (r : ℚ) : ℕ → ℕ → ℕ
  | n, 0 => n
  | n, fuel + 1 => if r ≤ (n : ℚ) ^ 2 then n else sqCeilFrom r (n + 1) fuel

def sqCeil (r : ℚ) : ℕ := sqCeilFrom r 0 (⌈r⌉₊ + 1)

/-- `split_extrusion_move`.  The source computes `d = math.hypot(x1-x0, y1-y0)`
and uses it only through `d <= max_step`, `d == 0` and `n = ceil(d/max_step)`;
these are rendered square-free: `d ≤ s ↔ (0 ≤ s ∧ d² ≤ s²)`, `d = 0 ↔ d² = 0`,
and for `s > 0`, `⌈d/s⌉` is the least `n` with `d² ≤ n²·s²`, i.e.
`sqCeil (d²/s²)`.  (For `max_step < 0` the Python `range(1, n+1)` is empty
since `ceil(d/max_step) ≤ 0`; `max_step = 0` cannot occur in the program,
whose step is the positive nozzle diameter.) -/
def split_extrusion_move (x0 y0 x1 y1 e max_step : ℚ) (f : Option ℚ) :
    List SubMove :=
  let d2 := (x1 - x0) ^ 2 + (y1 - y0) ^ 2
  if (0 ≤ max_step ∧ d2 ≤ max_step ^ 2) ∨ d2 = 0 then [⟨x1, y1, e, f⟩]
  else if max_step ≤ 0 then []
  else
    let n := sqCeil (d2 / max_step ^ 2)
    (List.range n).map (fun j =>
      let i : ℕ := j + 1
      let t := (i : ℚ) / (n : ℚ)
      ⟨x0 + (x1 - x0) * t, y0 + (y1 - y0) * t, e / (n : ℚ),
       if i = 1 then f else none⟩)

/-! ## Modal interpreter state, layer context, rewrite configuration -/

structure ModalState where
  abs_xyz : Bool := true
  rel_e : Bool := true
  x : ℚ := 0
  y : ℚ := 0
  z : ℚ := 0
  e : ℚ := 0
  f : Option ℚ := none
deriving DecidableEq

structure Context where
  layer_z : Option ℚ := none
  layer_h : Option ℚ := none
  feature_type : Option (List Char) := none
deriving DecidableEq

structure Config where
  proj : Projector
  nozzle_diam : ℚ
  max_dz_frac : ℚ := 1 / 2
  include_types : List (List Char)
  disable_first_layer : Bool := true
  max_ray_dist : Option ℚ := none

structure LoopState where
  st : ModalState
  ctx : Context
  last_layer_z : Option ℚ
deriving DecidableEq

def initLoopState : LoopState := ⟨{}, {}, none⟩

/-- `should_modify_type`: case-insensitive match of the stripped feature type
against the stripped include list. -/
def should_modify_type (ft : Option (List Char)) (types : List (List Char)) :
    Bool :=
  match ft with
  | none => false
  | some s => types.any (fun t => (trim s).map asciiLower == (trim t).map asciiLower)

/-- Feed-rate update: `if "F" in params: st.f = params["F"]`. -/
def applyF (st : ModalState) (ps : List (Char × ℚ)) : ModalState :=
  match getParam ps 'F' with
  | some v => { st with f := some v }
  | none => st

/-- Resolve one axis: absolute mode takes the parameter as the new coordinate,
relative mode adds it; an absent parameter leaves the axis unchanged. -/
def resolveAxis (absm : Bool) (cur : ℚ) : Option ℚ → ℚ
  | none => cur
  | some v => if absm then v else cur + v

/-- The unmodified processing of a `G1` line (feed update, axis resolution,
extrusion accounting), i.e. the state advance of the passthrough branch. -/
def g1_advance (st0 : ModalState) (ps : List (Char × ℚ)) : ModalState :=
  let st := applyF st0 ps
  let x1 := resolveAxis st.abs_xyz st.x (getParam ps 'X')
  let y1 := resolveAxis st.abs_xyz st.y (getParam ps 'Y')
  let z1 := resolveAxis st.abs_xyz st.z (getParam ps 'Z')
  let st1 := { st with x := x1, y := y1, z := z1 }
  match getParam ps 'E' with
  | none => st1
  | some v => { st1 with e := if st1.rel_e then st1.e + v else v }

/-- The per-sub-segment corrected Z (source lines 384–395): baseline is the
nominal layer Z; the raw offset `z_hit - z0` is clamped to `±dz_max`; a
missed sample leaves the offset at zero. -/
def corrected_z (proj : Projector) (layer_z dz_max ray_dist xs ys : ℚ) : ℚ :=
  let z0 := layer_z
  match z_hit_above proj xs ys z0 ray_dist with
  | none => z0
  | some z_hit =>
    let dz := z_hit - z0
    let dzc := if dz > dz_max then dz_max
               else if dz < -dz_max then -dz_max else dz
    z0 + dzc

/-- `" ".join(parts)`. -/
def joinSp : List (List Char) → List Char
  | [] => []
  | [p] => p
  | p :: ps => p ++ ' ' :: joinSp ps

/-- Emission of one rewritten sub-segment:
`G1 X… Y… Z… E…[ F…]` + newline, built as the source builds `parts`. -/
def emit_submove (proj : Projector) (layer_z dz_max ray_dist : ℚ)
    (sm : SubMove) : List Char :=
  let z_new := corrected_z proj layer_z dz_max ray_dist sm.x sm.y
  let parts : List (List Char) :=
    [['G', '1'], 'X' :: fmt_float sm.x, 'Y' :: fmt_float sm.y,
     'Z' :: fmt_float z_new, 'E' :: fmt_float sm.e] ++
    (match sm.f with
     | some fv => [('F' :: fmt_float fv)]
     | none => [])
  joinSp parts ++ ['\n']

/-- `startsWithL l p`: `l` begins with `p` (Python `str.startswith`). -/
def startsWithL : List Char → List Char → Bool
  | _, [] => true
  | [], _ :: _ => false
  | c :: l, d :: p => c == d && startsWithL l p

/-- `is_extruding`: an extrusion parameter is present, its resolved delta is
strictly positive (relative: `e > 0`; absolute: `e > st.e`), and X or Y moves. -/
def is_extrudingB (st : ModalState) (ps : List (Char × ℚ)) : Bool :=
  (match getParam ps 'E' with
   | some v => if st.rel_e then decide (0 < v) else decide (st.e < v)
   | none => false) &&
  ((getParam ps 'X').isSome || (getParam ps 'Y').isSome)

/-- `can_modify` (source lines 364–370): material-depositing move, known
effective layer Z and layer height, eligible feature type, and — unless
first-layer modification is enabled — `layer_z > layer_h + 1e-6`. -/
def can_modifyB (cfg : Config) (s : LoopState) (st : ModalState)
    (ps : List (Char × ℚ)) : Bool :=
  is_extrudingB st ps &&
  (s.ctx.layer_z.orElse (fun _ => s.last_layer_z)).isSome &&
  s.ctx.layer_h.isSome &&
  should_modify_type s.ctx.feature_type cfg.include_types &&
  (!cfg.disable_first_layer ||
    decide (s.ctx.layer_h.getD 0 + 1 / 1000000 <
      (s.ctx.layer_z.orElse (fun _ => s.last_layer_z)).getD 0))

/-- The `G1` branch of the rewrite loop (source lines 341–421). -/
def processG1 (cfg : Config) (s : LoopState) (ln code : List Char) :
    LoopState × List (List Char) :=
  let ps := parse_params code
  let st := applyF s.st ps
  let x1 := resolveAxis st.abs_xyz st.x (getParam ps 'X')
  let y1 := resolveAxis st.abs_xyz st.y (getParam ps 'Y')
  let z1 := resolveAxis st.abs_xyz st.z (getParam ps 'Z')
  let eo := getParam ps 'E'
  let layer_z := s.ctx.layer_z.orElse (fun _ => s.last_layer_z)
  let layer_h := s.ctx.layer_h
  if can_modifyB cfg s st ps then
    let lz := layer_z.getD 0
    let lh := layer_h.getD 0
    let dz_max := lh * cfg.max_dz_frac
    let ray_dist := cfg.max_ray_dist.getD (lh * (cfg.max_dz_frac + 1))
    let e_delta := match eo with
                   | some v => if st.rel_e then v else v - st.e
                   | none => 0
    let submoves :=
      split_extrusion_move st.x st.y x1 y1 e_delta cfg.nozzle_diam st.f
    let outs := submoves.map (emit_submove cfg.proj lz dz_max ray_dist)
    let e1 := match eo with
              | some v => if st.rel_e then st.e + e_delta else v
              | none => st.e
    ({ s with st := { st with x := x1, y := y1, z := z1, e := e1 } }, outs)
  else
    ({ s with st := g1_advance s.st ps }, [ln])

/-- One iteration of the rewrite loop (source lines 298–424). -/
def rewrite_step (cfg : Config) (s : LoopState) (ln : List Char) :
    LoopState × List (List Char) :=
  match matchLayerZ ln with
  | some q =>
    ({ s with ctx := { s.ctx with layer_z := some q }, last_layer_z := some q },
     [ln])
  | none =>
  match matchLayerH ln with
  | some q => ({ s with ctx := { s.ctx with layer_h := some q } }, [ln])
  | none =>
  match matchTYPE ln with
  | some t => ({ s with ctx := { s.ctx with feature_type := some t } }, [ln])
  | none =>
    let code := (strip_comment ln).map asciiUpper
    if code = [] then (s, [ln])
    else if startsWithL code ['G', '9', '0'] then
      ({ s with st := { s.st with abs_xyz := true } }, [ln])
    else if startsWithL code ['G', '9', '1'] then
      ({ s with st := { s.st with abs_xyz := false } }, [ln])
    else if startsWithL code ['M', '8', '2'] then
      ({ s with st := { s.st with rel_e := false } }, [ln])
    else if startsWithL code ['M', '8', '3'] then
      ({ s with st := { s.st with rel_e := true } }, [ln])
    else if startsWithL code ['G', '1'] then processG1 cfg s ln code
    else (s, [ln])

def rewrite_lines (cfg : Config) : LoopState → List (List Char) → List (List Char)
  | _, [] => []
  | s, ln :: rest =>
    let r := rewrite_step cfg s ln
    r.2 ++ rewrite_lines cfg r.1 rest

/-- `rewrite_prusaslicer_gcode` (minus the external mesh loading, which
produces `cfg.proj`). -/
def rewrite_prusaslicer_gcode (cfg : Config) (lines : List (List Char)) :
    List (List Char) :=
  rewrite_lines cfg initLoopState lines

/-! ## Whole-file layer-height inference -/

def insertSorted (q : ℚ) : List ℚ → List ℚ
  | [] => [q]
  | x :: xs => if q ≤ x then q :: x :: xs else x :: insertSorted q xs

def sortQ (l : List ℚ) : List ℚ := l.foldr insertSorted []

/-- Modelled from the spec: the external median (numpy `median`, not part of
this repository) — the middle element of the sorted list for odd length, the
average of the two middle elements for even length. -/
def npMedian (l : List ℚ) : ℚ :=
  let s := sortQ l
  let n := s.length
  if n % 2 = 1 then s.getD (n / 2) 0
  else (s.getD (n / 2 - 1) 0 + s.getD (n / 2) 0) / 2

/-- The collection loop of `infer_layer_height_prusaslicer`: every
`;HEIGHT:` value in the open interval `(0.01, 2.0)`, in file order. -/
def collectHeights : List (List Char) → List ℚ
  | [] => []
  | ln :: rest =>
    match matchLayerH ln with
    | some h =>
      if 1 / 100 < h ∧ h < 2 then h :: collectHeights rest
      else collectHeights rest
    | none => collectHeights rest

def infer_layer_height_prusaslicer (lines : List (List Char)) : Option ℚ :=
  let hs := collectHeights lines
  if hs = [] then none
  else if 4 ≤ hs.length then some (npMedian (hs.drop 1))
  else some (npMedian hs)

/-- The value that expresses a material amount `delta` in the configured
extrusion-accounting convention: the delta itself under relative accounting,
the advanced accumulator under absolute accounting. -/
def convExpressed (relE : Bool) (acc delta : ℚ) : ℚ :=
  if relE then delta else acc + delta

/-- The smallest element of a list of rationals, `none` for the empty list. -/
def minQ : List ℚ → Option ℚ
  | [] => none
  | q :: rest =>
    match minQ rest with
    | none => some q
    | some m => some (min q m)

/-! ## C1: the clamp invariant -/

/-- C1.  For every eligible rewritten move and every emitted sub-segment, the
corrected Z written to the emitted line satisfies
`|emitted Z − nominal layer Z| ≤ layer_height × clampFraction`, whatever Z the
surface sampler returns; and when the sampler returns no hit the offset is
zero, so the emitted Z equals the nominal layer Z.  (`corrected_z` is the
per-sub-segment Z computation the rewrite loop applies to every emitted
sub-segment — source lines 384–395; `lh * fr` is `dz_max = layer_h *
max_dz_frac`, and the bound needs the product to be a genuine bound,
`0 ≤ layer_h * max_dz_frac`.) -/
theorem corrected_z_clamped (p : Projector) (lz lh fr ray xs ys : ℚ)
    (hb : 0 ≤ lh * fr) :
    |corrected_z p lz (lh * fr) ray xs ys - lz| ≤ lh * fr ∧
    (z_hit_above p xs ys lz ray = none →
      corrected_z p lz (lh * fr) ray xs ys = lz) := by
  have hrw : ∀ M : ℚ, corrected_z p lz M ray xs ys =
      (match z_hit_above p xs ys lz ray with
       | none => lz
       | some zh =>
         lz + (if zh - lz > M then M else if zh - lz < -M then -M else zh - lz)) :=
    fun _ => rfl
  constructor
  · rw [hrw]
    cases hz : z_hit_above p xs ys lz ray with
    | none => simpa using hb
    | some zh =>
      have h3 : lz + (if zh - lz > lh * fr then lh * fr
          else if zh - lz < -(lh * fr) then -(lh * fr) else zh - lz) - lz =
          (if zh - lz > lh * fr then lh * fr
          else if zh - lz < -(lh * fr) then -(lh * fr) else zh - lz) := by ring
      rw [h3]
      split_ifs with h1 h2
      · rw [abs_of_nonneg hb]
      · rw [abs_neg, abs_of_nonneg hb]
      · exact abs_le.mpr ⟨le_of_not_lt h2, le_of_not_lt h1⟩
  · intro hz
    rw [hrw, hz]

/-- Witness for `corrected_z_clamped` at a concrete projector and query. -/
theorem corrected_z_clamped_witness :
    (0 : ℚ) ≤ (1 / 4) * (1 / 2) ∧
    (|corrected_z (mkProjector [] 1) (9 / 20) ((1 / 4) * (1 / 2)) (3 / 8) 1 1 -
        9 / 20| ≤ (1 / 4) * (1 / 2) ∧
      (z_hit_above (mkProjector [] 1) 1 1 (9 / 20) (3 / 8) = none →
        corrected_z (mkProjector [] 1) (9 / 20) ((1 / 4) * (1 / 2)) (3 / 8) 1 1 =
          9 / 20)) :=
  ⟨by norm_num,
   corrected_z_clamped (mkProjector [] 1) (9 / 20) (1 / 4) (1 / 2) (3 / 8) 1 1
     (by norm_num)⟩

/-! ## C2: the sampler query returns the smallest surviving candidate Z -/

/-- The claim's per-candidate acceptance test phrased from the specification:
compute the 2D signed area `den` and the barycentric coordinates of `(x, y)`;
reject when `|den| < 1e-12`, when any coordinate is below `-1e-9`, or when the
interpolated Z falls below `z0 - 1e-9` or above `z0 + maxDist + 1e-9`;
otherwise the candidate survives with its interpolated Z. -/
def zCandidate (p : Projector) (x y z0 max_dist : ℚ) (ti : ℕ) : Option ℚ :=
  match p.tris.get? ti with
  | none => none
  | some t =>
    let den := (t.b.x - t.a.x) * (t.c.y - t.a.y) -
      (t.c.x - t.a.x) * (t.b.y - t.a.y)
    if |den| < 1 / 10 ^ 12 then none
    else
      let u := ((x - t.a.x) * (t.c.y - t.a.y) -
        (t.c.x - t.a.x) * (y - t.a.y)) / den
      let v := ((t.b.x - t.a.x) * (y - t.a.y) -
        (x - t.a.x) * (t.b.y - t.a.y)) / den
      let w := 1 - u - v
      if u < -(1 / 10 ^ 9) ∨ v < -(1 / 10 ^ 9) ∨ w < -(1 / 10 ^ 9) then none
      else
        let z := w * t.a.z + u * t.b.z + v * t.c.z
        if z < z0 - 1 / 10 ^ 9 ∨ z > z0 + max_dist + 1 / 10 ^ 9 then none
        else some z

/-- The surviving candidates of a query, in candidate order. -/
def surviving (p : Projector) (x y z0 max_dist : ℚ) : List ℚ :=
  (candidatesOf p x y).filterMap (zCandidate p x y z0 max_dist)

/-- Combine two optional values by taking the smaller when both exist. -/
def minOQ : Option ℚ → Option ℚ → Option ℚ
  | none, b => b
  | some a, none => some a
  | some a, some b => some (min a b)

theorem minOQ_none_right (a : Option ℚ) : minOQ a none = a := by
  cases a <;> rfl

theorem minOQ_assoc (a b c : Option ℚ) :
    minOQ (minOQ a b) c = minOQ a (minOQ b c) := by
  cases a <;> cases b <;> cases c <;> simp [minOQ, min_assoc]

theorem minQ_cons (q : ℚ) (l : List ℚ) :
    minQ (q :: l) = minOQ (some q) (minQ l) := by
  cases h : minQ l <;> simp [minQ, h, minOQ]

/-- `barycentric_2d` written with plain divisions instead of a multiplication
by the precomputed inverse. -/
theorem barycentric_2d_div (px py a1 a2 b1 b2 c1 c2 : ℚ) :
    barycentric_2d px py a1 a2 b1 b2 c1 c2 =
      (let den := (b1 - a1) * (c2 - a2) - (c1 - a1) * (b2 - a2)
       if |den| < 1 / 10 ^ 12 then none
       else
         let u := ((px - a1) * (c2 - a2) - (c1 - a1) * (py - a2)) / den
         let v := ((b1 - a1) * (py - a2) - (px - a1) * (b2 - a2)) / den
         if u < -(1 / 10 ^ 9) ∨ v < -(1 / 10 ^ 9) ∨
             1 - u - v < -(1 / 10 ^ 9) then none
         else some (1 - u - v, u, v)) := by
  unfold barycentric_2d
  simp only [mul_one_div]

/-- One step of the sampler fold is the option-min of the running best with
the candidate's accept/reject outcome. -/
theorem zStep_eq_minOQ (p : Projector) (x y z0 md : ℚ) (zb : Option ℚ)
    (ti : ℕ) :
    zStep p x y z0 (z0 + md) zb ti = minOQ zb (zCandidate p x y z0 md ti) := by
  unfold zStep zCandidate
  cases hti : p.tris.get? ti with
  | none => exact (minOQ_none_right zb).symm
  | some t =>
    dsimp only
    rw [barycentric_2d_div]
    dsimp only [interpZ]
    split_ifs with harea hcoord hwin
    · exact (minOQ_none_right zb).symm
    · exact (minOQ_none_right zb).symm
    · dsimp only
      split_ifs with h1 h2
      · exact (minOQ_none_right zb).symm
      · exact (minOQ_none_right zb).symm
      · rcases hwin with h | h
        · exact absurd h h1
        · exact absurd h h2
    · dsimp only
      split_ifs with h1 h2
      · exact absurd (Or.inl h1) hwin
      · exact absurd (Or.inr h2) hwin
      · cases zb with
        | none => rfl
        | some a =>
          dsimp only
          rcases lt_or_le ((1 -
              ((x - t.a.x) * (t.c.y - t.a.y) - (t.c.x - t.a.x) * (y - t.a.y)) /
                ((t.b.x - t.a.x) * (t.c.y - t.a.y) - (t.c.x - t.a.x) * (t.b.y - t.a.y)) -
              ((t.b.x - t.a.x) * (y - t.a.y) - (x - t.a.x) * (t.b.y - t.a.y)) /
                ((t.b.x - t.a.x) * (t.c.y - t.a.y) - (t.c.x - t.a.x) * (t.b.y - t.a.y))) *
              t.a.z +
            ((x - t.a.x) * (t.c.y - t.a.y) - (t.c.x - t.a.x) * (y - t.a.y)) /
                ((t.b.x - t.a.x) * (t.c.y - t.a.y) - (t.c.x - t.a.x) * (t.b.y - t.a.y)) *
              t.b.z +
            ((t.b.x - t.a.x) * (y - t.a.y) - (x - t.a.x) * (t.b.y - t.a.y)) /
                ((t.b.x - t.a.x) * (t.c.y - t.a.y) - (t.c.x - t.a.x) * (t.b.y - t.a.y)) *
              t.c.z) a with h3 | h3
          · simp only [if_pos h3, minOQ, min_eq_right h3.le]
          · simp only [if_neg (not_lt.mpr h3), minOQ, min_eq_left h3]

/-- The sampler fold computes the minimum of the surviving candidates. -/
theorem foldl_zStep (p : Projector) (x y z0 md : ℚ) :
    ∀ (l : List ℕ) (acc : Option ℚ),
      l.foldl (zStep p x y z0 (z0 + md)) acc =
        minOQ acc (minQ (l.filterMap (zCandidate p x y z0 md))) := by
  intro l
  induction l with
  | nil => intro acc; simp [minQ, minOQ_none_right]
  | cons t l ih =>
    intro acc
    rw [List.foldl_cons, ih, zStep_eq_minOQ, minOQ_assoc, List.filterMap_cons]
    cases hc : zCandidate p x y z0 md t with
    | none => rfl
    | some z => rw [minQ_cons]

/-- C2.  On the built grid, `z_hit_above` returns the smallest interpolated Z
among the candidates that survive the rejection tests (barycentric coordinate
below `-1e-9`, 2D signed area with `|area| < 1e-12`, interpolated Z below
`z0 - 1e-9` or above `z0 + maxDist + 1e-9`), and no hit when none survives. -/
theorem z_hit_above_eq_min_surviving (tris : List Tri) (cell x y z0 md : ℚ)
    (hc : 0 < cell) :
    z_hit_above (mkProjector tris cell) x y z0 md =
      minQ (surviving (mkProjector tris cell) x y z0 md) := by
  unfold z_hit_above surviving
  by_cases h : candidatesOf (mkProjector tris cell) x y = []
  · simp [h, minQ]
  · simp only [if_neg h]
    rw [foldl_zStep]
    rfl

/-- Witness for `z_hit_above_eq_min_surviving` on a one-triangle mesh. -/
theorem z_hit_above_eq_min_surviving_witness :
    (0 : ℚ) < 1 ∧
    z_hit_above (mkProjector [⟨⟨0,0,1⟩,⟨4,0,1⟩,⟨0,4,1⟩⟩] 1) 1 1 0 2 =
      minQ (surviving (mkProjector [⟨⟨0,0,1⟩,⟨4,0,1⟩,⟨0,4,1⟩⟩] 1) 1 1 0 2) :=
  ⟨by norm_num,
   z_hit_above_eq_min_surviving [⟨⟨0,0,1⟩,⟨4,0,1⟩,⟨0,4,1⟩⟩] 1 1 1 0 2 (by norm_num)⟩

/-! ## C3, C4: the segment splitter -/

theorem sqCeilFrom_spec (r : ℚ) :
    ∀ (fuel n : ℕ), r ≤ ((n + fuel : ℕ) : ℚ) ^ 2 →
      r ≤ ((sqCeilFrom r n fuel : ℕ) : ℚ) ^ 2 := by
  intro fuel
  induction fuel with
  | zero => intro n h; simpa using h
  | succ fuel ih =>
    intro n h
    rw [sqCeilFrom]
    split_ifs with h1
    · exact h1
    · apply ih (n + 1)
      have he : n + 1 + fuel = n + (fuel + 1) := by omega
      rw [he]
      exact h

theorem sqCeilFrom_le (r : ℚ) :
    ∀ (fuel n m : ℕ), n ≤ m → r ≤ (m : ℚ) ^ 2 → sqCeilFrom r n fuel ≤ m := by
  intro fuel
  induction fuel with
  | zero => intro n m hnm _; simpa [sqCeilFrom] using hnm
  | succ fuel ih =>
    intro n m hnm hm
    rw [sqCeilFrom]
    split_ifs with h1
    · exact hnm
    · apply ih (n + 1) m _ hm
      have : n ≠ m := by
        intro he
        exact h1 (he ▸ hm)
      omega

theorem le_sqCeil_sq (r : ℚ) : r ≤ ((sqCeil r : ℕ) : ℚ) ^ 2 := by
  apply sqCeilFrom_spec
  have h1 : r ≤ ((⌈r⌉₊ : ℕ) : ℚ) := Nat.le_ceil r
  have h2 : ((⌈r⌉₊ : ℕ) : ℚ) ≤ ((0 + (⌈r⌉₊ + 1) : ℕ) : ℚ) ^ 2 := by
    push_cast
    nlinarith [Nat.cast_nonneg (α := ℚ) ⌈r⌉₊]
  exact h1.trans h2

theorem sqCeil_le (r : ℚ) (m : ℕ) (hm : r ≤ (m : ℚ) ^ 2) : sqCeil r ≤ m :=
  sqCeilFrom_le r _ 0 m (Nat.zero_le m) hm

theorem sqCeil_pos (r : ℚ) (hr : 0 < r) : 0 < sqCeil r := by
  rcases Nat.eq_zero_or_pos (sqCeil r) with h | h
  · exfalso
    have := le_sqCeil_sq r
    rw [h] at this
    norm_num at this
    exact absurd (lt_of_lt_of_le hr this) (lt_irrefl 0)
  · exact h

/-- C3.  The splitter agrees with its specification stated with the real
planar length `L = √((x1-x0)² + (y1-y0)²)`: a move of length at most the
step (in particular a zero-length move) is returned as the single segment
`(x1, y1, e, f)`; a longer move becomes `n = ⌈L/step⌉` equally spaced
sub-segments, each with extrusion `e/n`, the feed attached to the first
sub-segment only. -/
theorem split_extrusion_move_spec (x0 y0 x1 y1 e s : ℚ) (f : Option ℚ)
    (hs : 0 < s) :
    (Real.sqrt (((x1 - x0 : ℚ) : ℝ) ^ 2 + ((y1 - y0 : ℚ) : ℝ) ^ 2) ≤ (s : ℝ) →
      split_extrusion_move x0 y0 x1 y1 e s f = [⟨x1, y1, e, f⟩]) ∧
    ((s : ℝ) < Real.sqrt (((x1 - x0 : ℚ) : ℝ) ^ 2 + ((y1 - y0 : ℚ) : ℝ) ^ 2) →
      split_extrusion_move x0 y0 x1 y1 e s f =
        (List.range
            ⌈Real.sqrt (((x1 - x0 : ℚ) : ℝ) ^ 2 + ((y1 - y0 : ℚ) : ℝ) ^ 2) /
              (s : ℝ)⌉₊).map (fun j =>
          ⟨x0 + (x1 - x0) *
              (((j : ℚ) + 1) /
                ((⌈Real.sqrt (((x1 - x0 : ℚ) : ℝ) ^ 2 +
                    ((y1 - y0 : ℚ) : ℝ) ^ 2) / (s : ℝ)⌉₊ : ℕ) : ℚ)),
           y0 + (y1 - y0) *
              (((j : ℚ) + 1) /
                ((⌈Real.sqrt (((x1 - x0 : ℚ) : ℝ) ^ 2 +
                    ((y1 - y0 : ℚ) : ℝ) ^ 2) / (s : ℝ)⌉₊ : ℕ) : ℚ)),
           e / ((⌈Real.sqrt (((x1 - x0 : ℚ) : ℝ) ^ 2 +
                    ((y1 - y0 : ℚ) : ℝ) ^ 2) / (s : ℝ)⌉₊ : ℕ) : ℚ),
           if j = 0 then f else none⟩)) := by
  have hd2cast : (((x1 - x0) ^ 2 + (y1 - y0) ^ 2 : ℚ) : ℝ) =
      ((x1 - x0 : ℚ) : ℝ) ^ 2 + ((y1 - y0 : ℚ) : ℝ) ^ 2 := by push_cast; ring
  have hd2nn : (0 : ℚ) ≤ (x1 - x0) ^ 2 + (y1 - y0) ^ 2 := by positivity
  constructor
  · intro hLe
    have hle2 : ((x1 - x0) ^ 2 + (y1 - y0) ^ 2 : ℚ) ≤ s ^ 2 := by
      have h0 : Real.sqrt ((((x1 - x0) ^ 2 + (y1 - y0) ^ 2 : ℚ)) : ℝ) ≤ (s : ℝ) := by
        rw [hd2cast]
        exact hLe
      have := (Real.sqrt_le_left (by positivity : (0 : ℝ) ≤ (s : ℝ))).mp h0
      exact_mod_cast this
    unfold split_extrusion_move
    rw [if_pos (Or.inl ⟨hs.le, hle2⟩)]
  · intro hlt
    have hgt2 : (s : ℚ) ^ 2 < (x1 - x0) ^ 2 + (y1 - y0) ^ 2 := by
      by_contra hc
      push_neg at hc
      have : Real.sqrt (((x1 - x0 : ℚ) : ℝ) ^ 2 + ((y1 - y0 : ℚ) : ℝ) ^ 2) ≤
          (s : ℝ) := by
        apply (Real.sqrt_le_left (by positivity : (0 : ℝ) ≤ (s : ℝ))).mpr
        rw [← hd2cast]
        exact_mod_cast hc
      exact absurd hlt (not_lt.mpr this)
    have hcond : ¬(((0 : ℚ) ≤ s ∧
        (x1 - x0) ^ 2 + (y1 - y0) ^ 2 ≤ s ^ 2) ∨
        (x1 - x0) ^ 2 + (y1 - y0) ^ 2 = 0) := by
      push_neg
      constructor
      · intro _
        exact hgt2
      · intro h0
        rw [h0] at hgt2
        nlinarith
    have hceil : sqCeil (((x1 - x0) ^ 2 + (y1 - y0) ^ 2) / s ^ 2) =
        ⌈Real.sqrt (((x1 - x0 : ℚ) : ℝ) ^ 2 + ((y1 - y0 : ℚ) : ℝ) ^ 2) /
          (s : ℝ)⌉₊ := by
      set L : ℝ := Real.sqrt (((x1 - x0 : ℚ) : ℝ) ^ 2 + ((y1 - y0 : ℚ) : ℝ) ^ 2)
        with hLdef
      have hspos : (0 : ℝ) < (s : ℝ) := by exact_mod_cast hs
      apply le_antisymm
      · apply sqCeil_le
        have h1 : L / (s : ℝ) ≤ (⌈L / (s : ℝ)⌉₊ : ℝ) := Nat.le_ceil _
        have h2 : L ≤ (⌈L / (s : ℝ)⌉₊ : ℝ) * (s : ℝ) :=
          (div_le_iff hspos).mp h1
        have h3 : ((x1 - x0 : ℚ) : ℝ) ^ 2 + ((y1 - y0 : ℚ) : ℝ) ^ 2 ≤
            ((⌈L / (s : ℝ)⌉₊ : ℝ) * (s : ℝ)) ^ 2 :=
          (Real.sqrt_le_left (by positivity)).mp h2
        have h4 : ((x1 - x0) ^ 2 + (y1 - y0) ^ 2 : ℚ) ≤
            ((⌈L / (s : ℝ)⌉₊ : ℕ) : ℚ) ^ 2 * s ^ 2 := by
          rw [← hd2cast] at h3
          have h5 : ((⌈L / (s : ℝ)⌉₊ : ℝ) * (s : ℝ)) ^ 2 =
              (((⌈L / (s : ℝ)⌉₊ : ℕ) : ℚ) ^ 2 * s ^ 2 : ℚ) := by
            push_cast
            ring
          rw [h5] at h3
          exact_mod_cast h3
        rw [div_le_iff (by positivity : (0 : ℚ) < s ^ 2)]
        exact h4
      · apply Nat.ceil_le.mpr
        set n : ℕ := sqCeil (((x1 - x0) ^ 2 + (y1 - y0) ^ 2) / s ^ 2)
        have h1 : ((x1 - x0) ^ 2 + (y1 - y0) ^ 2) / s ^ 2 ≤ (n : ℚ) ^ 2 :=
          le_sqCeil_sq _
        have h2 : ((x1 - x0) ^ 2 + (y1 - y0) ^ 2 : ℚ) ≤ (n : ℚ) ^ 2 * s ^ 2 :=
          (div_le_iff (by positivity : (0 : ℚ) < s ^ 2)).mp h1
        have h3 : L ≤ (n : ℝ) * (s : ℝ) := by
          apply (Real.sqrt_le_left (by positivity)).mpr
          rw [← hd2cast]
          have : ((n : ℝ) * (s : ℝ)) ^ 2 = (((n : ℚ) ^ 2 * s ^ 2 : ℚ) : ℝ) := by
            push_cast
            ring
          rw [this]
          exact_mod_cast h2
        rw [div_le_iff hspos]
        exact h3
    unfold split_extrusion_move
    rw [if_neg hcond, if_neg (not_le.mpr hs)]
    rw [hceil]
    apply List.map_congr_left
    intro j _
    have hc1 : ((j + 1 : ℕ) : ℚ) = (j : ℚ) + 1 := by push_cast; ring
    have hc2 : (j + 1 = 1) ↔ (j = 0) := by omega
    dsimp only
    rw [hc1, if_congr hc2 rfl rfl]

/-- Witness for `split_extrusion_move_spec` on a 3-4-5 move with step 2. -/
theorem split_extrusion_move_spec_witness :
    (0 : ℚ) < 2 ∧
    ((Real.sqrt (((3 - 0 : ℚ) : ℝ) ^ 2 + ((4 - 0 : ℚ) : ℝ) ^ 2) ≤ ((2 : ℚ) : ℝ) →
      split_extrusion_move 0 0 3 4 1 2 none = [⟨3, 4, 1, none⟩]) ∧
    (((2 : ℚ) : ℝ) < Real.sqrt (((3 - 0 : ℚ) : ℝ) ^ 2 + ((4 - 0 : ℚ) : ℝ) ^ 2) →
      split_extrusion_move 0 0 3 4 1 2 none =
        (List.range
            ⌈Real.sqrt (((3 - 0 : ℚ) : ℝ) ^ 2 + ((4 - 0 : ℚ) : ℝ) ^ 2) /
              ((2 : ℚ) : ℝ)⌉₊).map (fun j =>
          ⟨0 + (3 - 0) *
              (((j : ℚ) + 1) /
                ((⌈Real.sqrt (((3 - 0 : ℚ) : ℝ) ^ 2 +
                    ((4 - 0 : ℚ) : ℝ) ^ 2) / ((2 : ℚ) : ℝ)⌉₊ : ℕ) : ℚ)),
           0 + (4 - 0) *
              (((j : ℚ) + 1) /
                ((⌈Real.sqrt (((3 - 0 : ℚ) : ℝ) ^ 2 +
                    ((4 - 0 : ℚ) : ℝ) ^ 2) / ((2 : ℚ) : ℝ)⌉₊ : ℕ) : ℚ)),
           1 / ((⌈Real.sqrt (((3 - 0 : ℚ) : ℝ) ^ 2 +
                    ((4 - 0 : ℚ) : ℝ) ^ 2) / ((2 : ℚ) : ℝ)⌉₊ : ℕ) : ℚ),
           if j = 0 then none else none⟩))) :=
  ⟨by norm_num, split_extrusion_move_spec 0 0 3 4 1 2 none (by norm_num)⟩

/-- C4 (amended).  The sub-segment extrusion deltas computed by the splitter
(the values the rewrite loop passes to line emission) sum exactly to the
move's total extrusion delta. -/
theorem split_extrusion_move_sum (x0 y0 x1 y1 e s : ℚ) (f : Option ℚ)
    (hs : 0 < s) :
    ((split_extrusion_move x0 y0 x1 y1 e s f).map SubMove.e).sum = e := by
  unfold split_extrusion_move
  by_cases h1 : ((0 : ℚ) ≤ s ∧ (x1 - x0) ^ 2 + (y1 - y0) ^ 2 ≤ s ^ 2) ∨
      (x1 - x0) ^ 2 + (y1 - y0) ^ 2 = 0
  · rw [if_pos h1]
    simp
  · rw [if_neg h1, if_neg (not_le.mpr hs)]
    push_neg at h1
    have hd2pos : 0 < (x1 - x0) ^ 2 + (y1 - y0) ^ 2 := by
      rcases h1 with ⟨h1a, h1b⟩
      have h1c := h1a hs.le
      have h1d : (0 : ℚ) ≤ (x1 - x0) ^ 2 + (y1 - y0) ^ 2 := by positivity
      rcases lt_or_eq_of_le h1d with h | h
      · exact h
      · exact absurd h.symm h1b
    have hn : 0 < sqCeil (((x1 - x0) ^ 2 + (y1 - y0) ^ 2) / s ^ 2) :=
      sqCeil_pos _ (by positivity)
    set n := sqCeil (((x1 - x0) ^ 2 + (y1 - y0) ^ 2) / s ^ 2) with hn_def
    rw [List.map_map]
    have hmap : (SubMove.e ∘ fun j =>
        (⟨x0 + (x1 - x0) * (((j + 1 : ℕ) : ℚ) / (n : ℚ)),
          y0 + (y1 - y0) * (((j + 1 : ℕ) : ℚ) / (n : ℚ)), e / (n : ℚ),
          if j + 1 = 1 then f else none⟩ : SubMove)) =
        fun _ => e / (n : ℚ) := rfl
    rw [hmap]
    rw [List.map_const']
    rw [List.sum_replicate, List.length_range, nsmul_eq_mul]
    rw [mul_div_cancel₀]
    exact_mod_cast hn.ne'

/-- Witness for `split_extrusion_move_sum`: the 10 mm move with step 2. -/
theorem split_extrusion_move_sum_witness :
    (0 : ℚ) < 2 ∧
    ((split_extrusion_move 0 0 10 0 1 2 (some 1200)).map SubMove.e).sum = 1 :=
  ⟨by norm_num, split_extrusion_move_sum 0 0 10 0 1 2 (some 1200) (by norm_num)⟩

/-- A projector over an empty triangle list: every query misses. -/
def emptyProjector : Projector := mkProjector [] 2

/-- Counterexample input for C4: an eligible `External perimeter` move with
total (relative) extrusion delta `0.000004` over a 10 mm move, split at step
2 into five sub-segments of `8e-7` each; `fmt_float` renders each as `E0`. -/
def linesTinyE : List (List Char) :=
  [";Z:0.45\n".toList, ";HEIGHT:0.25\n".toList,
   ";TYPE:External perimeter\n".toList,
   "G1 X0 Y0 Z0.45 F1200\n".toList, "G1 X10 Y0 E0.000004\n".toList]

def cfgSplitCE : Config :=
  { proj := emptyProjector, nozzle_diam := 2, max_dz_frac := 1 / 2,
    include_types := ["External perimeter".toList],
    disable_first_layer := true, max_ray_dist := none }

/-- C4 as stated is false of the code: the extrusion deltas *carried by the
emitted sub-segment lines* are the 5-decimal `fmt_float` renderings, and for
the eligible split move `G1 X10 Y0 E0.000004` each sub-segment's `8e-7`
renders as `E0`; the sum carried by the five emitted lines is `0`, which
differs from the move's resolved extrusion delta `1/250000 = 4e-6` by more
than `1e-6` (and by more than a relative `1e-6` as well). -/
theorem emitted_E_sum_formatted_counterexample :
    getParam (parse_params ((linesTinyE.getD 4 []).map asciiUpper)) 'E' =
      some (1 / 250000) ∧
    (rewrite_prusaslicer_gcode cfgSplitCE linesTinyE).length = 9 ∧
    ((rewrite_prusaslicer_gcode cfgSplitCE linesTinyE).drop 4 |>.filterMap
        (fun l => getParam (parse_params l) 'E')).sum = 0 ∧
    ¬(|((rewrite_prusaslicer_gcode cfgSplitCE linesTinyE).drop 4 |>.filterMap
        (fun l => getParam (parse_params l) 'E')).sum - 1 / 250000| ≤
      1 / 1000000) := by decide

/-! ## The rewrite loop: dispatch and state lemmas -/

theorem trim_eq_nil_of_all_ws (l : List Char)
    (h : ∀ x ∈ l, isWsChar x = true) : trim l = [] := by
  unfold trim
  have h1 : l.dropWhile isWsChar = [] := List.dropWhile_eq_nil_iff.mpr h
  rw [h1]
  rfl

theorem skipWs_ne_semi (ln : List Char) (h : strip_comment ln ≠ []) :
    ∀ r, skipWs ln ≠ ';' :: r := by
  induction ln with
  | nil => exact absurd rfl h
  | cons c tl ih =>
    intro r
    by_cases hc : isWsChar c = true
    · have hcs : c ≠ ';' := by
        intro he
        rw [he] at hc
        exact absurd hc (by decide)
      have h1 : strip_comment (c :: tl) = strip_comment tl := by
        unfold strip_comment
        have h2 : (c :: tl).takeWhile (fun d => d != ';') =
            c :: tl.takeWhile (fun d => d != ';') := by
          rw [List.takeWhile_cons_of_pos]
          simp [hcs]
        rw [h2]
        unfold trim
        rw [List.dropWhile_cons_of_pos hc]
      rw [h1] at h
      have h3 : skipWs (c :: tl) = skipWs tl := by
        unfold skipWs
        rw [List.dropWhile_cons_of_pos hc]
      rw [h3]
      exact ih h r
    · have hcs : c ≠ ';' := by
        intro he
        apply h
        unfold strip_comment
        rw [he]
        have h2 : (';' :: tl).takeWhile (fun d => d != ';') = [] := by
          rw [List.takeWhile_cons_of_neg]
          simp
        rw [h2]
        rfl
      have h3 : skipWs (c :: tl) = c :: tl := by
        unfold skipWs
        rw [List.dropWhile_cons_of_neg hc]
      rw [h3]
      intro he
      rw [List.cons.injEq] at he
      exact hcs he.1

theorem matchSemiFloat_none (tag ln : List Char) (h : strip_comment ln ≠ []) :
    matchSemiFloat tag ln = none := by
  unfold matchSemiFloat
  cases hsw : skipWs ln with
  | nil => rfl
  | cons c r =>
    have hc : c ≠ ';' := by
      intro he
      exact skipWs_ne_semi ln h r (he ▸ hsw)
    dsimp only
    rw [if_neg hc]

theorem matchTYPE_none (ln : List Char) (h : strip_comment ln ≠ []) :
    matchTYPE ln = none := by
  unfold matchTYPE
  cases hsw : skipWs ln with
  | nil => rfl
  | cons c r =>
    have hc : c ≠ ';' := by
      intro he
      exact skipWs_ne_semi ln h r (he ▸ hsw)
    dsimp only
    rw [if_neg hc]

theorem startsWithL_cons_elim (l : List Char) (d : Char) (p : List Char)
    (h : startsWithL l (d :: p) = true) :
    ∃ l', l = d :: l' ∧ startsWithL l' p = true := by
  cases l with
  | nil => exact absurd h (by simp [startsWithL])
  | cons c l' =>
    unfold startsWithL at h
    rw [Bool.and_eq_true] at h
    obtain ⟨h1, h2⟩ := h
    exact ⟨l', by rw [eq_of_beq h1], h2⟩

/-- Dispatch: a line whose comment-stripped uppercased payload begins with
`G1` is handed to the `G1` branch of the rewrite loop. -/
theorem rewrite_step_G1 (cfg : Config) (s : LoopState) (ln : List Char)
    (h : startsWithL ((strip_comment ln).map asciiUpper) ['G', '1'] = true) :
    rewrite_step cfg s ln =
      processG1 cfg s ln ((strip_comment ln).map asciiUpper) := by
  obtain ⟨l1, hl1, h1⟩ := startsWithL_cons_elim _ _ _ h
  obtain ⟨l2, hl2, _⟩ := startsWithL_cons_elim _ _ _ h1
  have hne : strip_comment ln ≠ [] := by
    intro he
    rw [he] at hl1
    exact absurd hl1 (by simp)
  unfold rewrite_step
  rw [show matchLayerZ ln = none from matchSemiFloat_none _ _ hne,
      show matchLayerH ln = none from matchSemiFloat_none _ _ hne,
      matchTYPE_none ln hne]
  dsimp only
  rw [hl1, hl2]
  rw [if_neg (by simp : ¬('G' :: '1' :: l2 : List Char) = [])]
  rw [if_neg (by simp [startsWithL] :
    ¬startsWithL ('G' :: '1' :: l2) ['G', '9', '0'] = true)]
  rw [if_neg (by simp [startsWithL] :
    ¬startsWithL ('G' :: '1' :: l2) ['G', '9', '1'] = true)]
  rw [if_neg (by simp [startsWithL] :
    ¬startsWithL ('G' :: '1' :: l2) ['M', '8', '2'] = true)]
  rw [if_neg (by simp [startsWithL] :
    ¬startsWithL ('G' :: '1' :: l2) ['M', '8', '3'] = true)]
  rw [if_pos (by simp [startsWithL] :
    startsWithL ('G' :: '1' :: l2) ['G', '1'] = true)]

theorem processG1_st (cfg : Config) (s : LoopState) (ln code : List Char) :
    (processG1 cfg s ln code).1.st = g1_advance s.st (parse_params code) := by
  unfold processG1 g1_advance
  dsimp only
  split_ifs <;> (try rfl) <;>
    (generalize getParam (parse_params code) 'E' = eo
     cases eo <;> rfl)

theorem can_modifyB_false_of_ineligible (cfg : Config) (s : LoopState)
    (st : ModalState) (ps : List (Char × ℚ))
    (h : should_modify_type s.ctx.feature_type cfg.include_types = false ∨
      s.ctx.layer_z.orElse (fun _ => s.last_layer_z) = none ∨
      s.ctx.layer_h = none) :
    can_modifyB cfg s st ps = false := by
  rcases h with h | h | h <;> simp [can_modifyB, h]

theorem can_modifyB_false_first_layer (cfg : Config) (s : LoopState)
    (st : ModalState) (ps : List (Char × ℚ))
    (hd : cfg.disable_first_layer = true)
    (hlayer : ∀ lz lh : ℚ,
      s.ctx.layer_z.orElse (fun _ => s.last_layer_z) = some lz →
      s.ctx.layer_h = some lh → lz ≤ lh) :
    can_modifyB cfg s st ps = false := by
  cases hlz : s.ctx.layer_z.orElse (fun _ => s.last_layer_z) with
  | none => simp [can_modifyB, hlz]
  | some lz =>
    cases hlh : s.ctx.layer_h with
    | none => simp [can_modifyB, hlh]
    | some lh =>
      have hle : lz ≤ lh := hlayer lz lh hlz hlh
      have hnot : ¬(lh + 1 / 1000000 < lz) := by
        push_neg
        linarith
      simp only [can_modifyB, hlz, hlh, hd, hnot, Option.isSome_some,
        Option.getD_some, Bool.not_true, Bool.false_or, decide_eq_false hnot,
        Bool.and_false, Bool.and_eq_false_imp]
      intro _
      simp

theorem processG1_passthrough (cfg : Config) (s : LoopState) (ln code : List Char)
    (hcm : can_modifyB cfg s (applyF s.st (parse_params code)) (parse_params code) = false) :
    (processG1 cfg s ln code).2 = [ln] := by
  unfold processG1
  dsimp only
  rw [hcm]
  rfl

theorem rewrite_step_G90 (cfg : Config) (s : LoopState) (ln : List Char)
    (h : startsWithL ((strip_comment ln).map asciiUpper) ['G', '9', '0'] = true) :
    rewrite_step cfg s ln =
      ({ s with st := { s.st with abs_xyz := true } }, [ln]) := by
  obtain ⟨l1, hl1, h1⟩ := startsWithL_cons_elim _ _ _ h
  obtain ⟨l2, hl2, h2⟩ := startsWithL_cons_elim _ _ _ h1
  obtain ⟨l3, hl3, _⟩ := startsWithL_cons_elim _ _ _ h2
  have hne : strip_comment ln ≠ [] := by
    intro he
    rw [he] at hl1
    exact absurd hl1 (by simp)
  unfold rewrite_step
  rw [show matchLayerZ ln = none from matchSemiFloat_none _ _ hne,
      show matchLayerH ln = none from matchSemiFloat_none _ _ hne,
      matchTYPE_none ln hne]
  dsimp only
  rw [hl1, hl2, hl3]
  rw [if_neg (by simp : ¬('G' :: '9' :: '0' :: l3 : List Char) = [])]
  rw [if_pos (by simp [startsWithL] :
    startsWithL ('G' :: '9' :: '0' :: l3) ['G', '9', '0'] = true)]

theorem rewrite_step_G91 (cfg : Config) (s : LoopState) (ln : List Char)
    (h : startsWithL ((strip_comment ln).map asciiUpper) ['G', '9', '1'] = true) :
    rewrite_step cfg s ln =
      ({ s with st := { s.st with abs_xyz := false } }, [ln]) := by
  obtain ⟨l1, hl1, h1⟩ := startsWithL_cons_elim _ _ _ h
  obtain ⟨l2, hl2, h2⟩ := startsWithL_cons_elim _ _ _ h1
  obtain ⟨l3, hl3, _⟩ := startsWithL_cons_elim _ _ _ h2
  have hne : strip_comment ln ≠ [] := by
    intro he
    rw [he] at hl1
    exact absurd hl1 (by simp)
  unfold rewrite_step
  rw [show matchLayerZ ln = none from matchSemiFloat_none _ _ hne,
      show matchLayerH ln = none from matchSemiFloat_none _ _ hne,
      matchTYPE_none ln hne]
  dsimp only
  rw [hl1, hl2, hl3]
  rw [if_neg (by simp : ¬('G' :: '9' :: '1' :: l3 : List Char) = [])]
  rw [if_neg (by simp [startsWithL] :
    ¬startsWithL ('G' :: '9' :: '1' :: l3) ['G', '9', '0'] = true)]
  rw [if_pos (by simp [startsWithL] :
    startsWithL ('G' :: '9' :: '1' :: l3) ['G', '9', '1'] = true)]

theorem rewrite_step_M82 (cfg : Config) (s : LoopState) (ln : List Char)
    (h : startsWithL ((strip_comment ln).map asciiUpper) ['M', '8', '2'] = true) :
    rewrite_step cfg s ln =
      ({ s with st := { s.st with rel_e := false } }, [ln]) := by
  obtain ⟨l1, hl1, h1⟩ := startsWithL_cons_elim _ _ _ h
  obtain ⟨l2, hl2, h2⟩ := startsWithL_cons_elim _ _ _ h1
  obtain ⟨l3, hl3, _⟩ := startsWithL_cons_elim _ _ _ h2
  have hne : strip_comment ln ≠ [] := by
    intro he
    rw [he] at hl1
    exact absurd hl1 (by simp)
  unfold rewrite_step
  rw [show matchLayerZ ln = none from matchSemiFloat_none _ _ hne,
      show matchLayerH ln = none from matchSemiFloat_none _ _ hne,
      matchTYPE_none ln hne]
  dsimp only
  rw [hl1, hl2, hl3]
  rw [if_neg (by simp : ¬('M' :: '8' :: '2' :: l3 : List Char) = [])]
  rw [if_neg (by simp [startsWithL] :
    ¬startsWithL ('M' :: '8' :: '2' :: l3) ['G', '9', '0'] = true)]
  rw [if_neg (by simp [startsWithL] :
    ¬startsWithL ('M' :: '8' :: '2' :: l3) ['G', '9', '1'] = true)]
  rw [if_pos (by simp [startsWithL] :
    startsWithL ('M' :: '8' :: '2' :: l3) ['M', '8', '2'] = true)]

theorem rewrite_step_M83 (cfg : Config) (s : LoopState) (ln : List Char)
    (h : startsWithL ((strip_comment ln).map asciiUpper) ['M', '8', '3'] = true) :
    rewrite_step cfg s ln =
      ({ s with st := { s.st with rel_e := true } }, [ln]) := by
  obtain ⟨l1, hl1, h1⟩ := startsWithL_cons_elim _ _ _ h
  obtain ⟨l2, hl2, h2⟩ := startsWithL_cons_elim _ _ _ h1
  obtain ⟨l3, hl3, _⟩ := startsWithL_cons_elim _ _ _ h2
  have hne : strip_comment ln ≠ [] := by
    intro he
    rw [he] at hl1
    exact absurd hl1 (by simp)
  unfold rewrite_step
  rw [show matchLayerZ ln = none from matchSemiFloat_none _ _ hne,
      show matchLayerH ln = none from matchSemiFloat_none _ _ hne,
      matchTYPE_none ln hne]
  dsimp only
  rw [hl1, hl2, hl3]
  rw [if_neg (by simp : ¬('M' :: '8' :: '3' :: l3 : List Char) = [])]
  rw [if_neg (by simp [startsWithL] :
    ¬startsWithL ('M' :: '8' :: '3' :: l3) ['G', '9', '0'] = true)]
  rw [if_neg (by simp [startsWithL] :
    ¬startsWithL ('M' :: '8' :: '3' :: l3) ['G', '9', '1'] = true)]
  rw [if_neg (by simp [startsWithL] :
    ¬startsWithL ('M' :: '8' :: '3' :: l3) ['M', '8', '2'] = true)]
  rw [if_pos (by simp [startsWithL] :
    startsWithL ('M' :: '8' :: '3' :: l3) ['M', '8', '3'] = true)]

/-- C5.  For every `G1` positioning line — rewritten or passed through — the
modal interpreter state after the rewrite step equals the state after
processing the single original move unmodified (`g1_advance`): position is
the original resolved target, the extrusion accumulator is advanced by the
original total delta (relative) or set to the commanded value (absolute),
and the feed is the sticky feed. -/
theorem rewritten_move_state_unperturbed (cfg : Config) (s : LoopState)
    (ln : List Char)
    (h : startsWithL ((strip_comment ln).map asciiUpper) ['G', '1'] = true) :
    (rewrite_step cfg s ln).1.st =
      g1_advance s.st (parse_params ((strip_comment ln).map asciiUpper)) := by
  rw [rewrite_step_G1 cfg s ln h]
  exact processG1_st cfg s ln _

/-- Witness for `rewritten_move_state_unperturbed`. -/
theorem rewritten_move_state_unperturbed_witness :
    startsWithL ((strip_comment "G1 X1 Y2 E0.5 F100\n".toList).map asciiUpper)
      ['G', '1'] = true ∧
    (rewrite_step cfgSplitCE initLoopState "G1 X1 Y2 E0.5 F100\n".toList).1.st =
      g1_advance initLoopState.st
        (parse_params ((strip_comment "G1 X1 Y2 E0.5 F100\n".toList).map
          asciiUpper)) :=
  ⟨by decide,
   rewritten_move_state_unperturbed cfgSplitCE initLoopState _ (by decide)⟩

/-- C7.  With first-layer modification disabled, a `G1` move whose effective
layer Z does not exceed the effective layer height (in particular the first
layer, where they are equal) is never rewritten: the output is the single
unmodified input line.  (An unknown layer context also passes through.) -/
theorem first_layer_not_rewritten (cfg : Config) (s : LoopState)
    (ln : List Char)
    (h : startsWithL ((strip_comment ln).map asciiUpper) ['G', '1'] = true)
    (hd : cfg.disable_first_layer = true)
    (hlayer : ∀ lz lh : ℚ,
      s.ctx.layer_z.orElse (fun _ => s.last_layer_z) = some lz →
      s.ctx.layer_h = some lh → lz ≤ lh) :
    (rewrite_step cfg s ln).2 = [ln] := by
  rw [rewrite_step_G1 cfg s ln h]
  exact processG1_passthrough cfg s ln _
    (can_modifyB_false_first_layer cfg s _ _ hd hlayer)

/-- The loop state on the first layer for the C7 witness: eligible feature
type, layer Z equal to the layer height. -/
def sFirstLayer : LoopState :=
  { st := {},
    ctx := { layer_z := some (1 / 4), layer_h := some (1 / 4),
             feature_type := some "External perimeter".toList },
    last_layer_z := some (1 / 4) }

/-- Witness for `first_layer_not_rewritten`: layer Z = layer height = 0.25,
eligible feature type, and yet the move passes through untouched. -/
theorem first_layer_not_rewritten_witness :
    startsWithL ((strip_comment "G1 X5 Y0 E1\n".toList).map asciiUpper)
      ['G', '1'] = true ∧
    cfgSplitCE.disable_first_layer = true ∧
    (rewrite_step cfgSplitCE sFirstLayer "G1 X5 Y0 E1\n".toList).2 =
      ["G1 X5 Y0 E1\n".toList] :=
  ⟨by decide, rfl,
   first_layer_not_rewritten cfgSplitCE sFirstLayer _ (by decide) rfl
     (by
       intro lz lh h1 h2
       injection h1 with h1
       injection h2 with h2
       rw [← h1, ← h2])⟩

/-- C8.  A `G1` positioning line whose feature classification is not in the
eligible set, or whose effective layer Z or layer height is unknown, is
passed through byte-identical, while the interpreter state still advances
exactly as for the unmodified move. -/
theorem ineligible_move_passthrough (cfg : Config) (s : LoopState)
    (ln : List Char)
    (h : startsWithL ((strip_comment ln).map asciiUpper) ['G', '1'] = true)
    (hin : should_modify_type s.ctx.feature_type cfg.include_types = false ∨
      s.ctx.layer_z.orElse (fun _ => s.last_layer_z) = none ∨
      s.ctx.layer_h = none) :
    (rewrite_step cfg s ln).2 = [ln] ∧
    (rewrite_step cfg s ln).1.st =
      g1_advance s.st (parse_params ((strip_comment ln).map asciiUpper)) := by
  rw [rewrite_step_G1 cfg s ln h]
  exact ⟨processG1_passthrough cfg s ln _
      (can_modifyB_false_of_ineligible cfg s _ _ hin),
    processG1_st cfg s ln _⟩

/-- The loop state for the C8 witness: known layers but an ineligible
feature type. -/
def sSupport : LoopState :=
  { st := {},
    ctx := { layer_z := some (9 / 20), layer_h := some (1 / 4),
             feature_type := some "Support material".toList },
    last_layer_z := some (9 / 20) }

/-- Witness for `ineligible_move_passthrough`: a `Support material` move. -/
theorem ineligible_move_passthrough_witness :
    startsWithL ((strip_comment "G1 X20 Y0 E1.0 F1200\n".toList).map asciiUpper)
      ['G', '1'] = true ∧
    should_modify_type sSupport.ctx.feature_type cfgSplitCE.include_types =
      false ∧
    ((rewrite_step cfgSplitCE sSupport "G1 X20 Y0 E1.0 F1200\n".toList).2 =
      ["G1 X20 Y0 E1.0 F1200\n".toList] ∧
    (rewrite_step cfgSplitCE sSupport "G1 X20 Y0 E1.0 F1200\n".toList).1.st =
      g1_advance sSupport.st
        (parse_params ((strip_comment "G1 X20 Y0 E1.0 F1200\n".toList).map
          asciiUpper))) :=
  ⟨by decide, by decide,
   ineligible_move_passthrough cfgSplitCE sSupport _ (by decide)
     (Or.inl (by decide))⟩

/-- C10.  Command-kind classification in the rewrite loop is by string
prefix of the comment-stripped uppercased payload: any payload beginning
with `G1` (also `G10`, `G17`, …) is processed by the positioning branch, and
any payload beginning with `G90`, `G91`, `M82` or `M83` (also longer codes
such as `M820`) triggers the corresponding mode switch and passes through. -/
theorem command_kind_by_prefix_of_payload (cfg : Config) (s : LoopState)
    (ln : List Char) :
    (startsWithL ((strip_comment ln).map asciiUpper) ['G', '9', '0'] = true →
      rewrite_step cfg s ln =
        ({ s with st := { s.st with abs_xyz := true } }, [ln])) ∧
    (startsWithL ((strip_comment ln).map asciiUpper) ['G', '9', '1'] = true →
      rewrite_step cfg s ln =
        ({ s with st := { s.st with abs_xyz := false } }, [ln])) ∧
    (startsWithL ((strip_comment ln).map asciiUpper) ['M', '8', '2'] = true →
      rewrite_step cfg s ln =
        ({ s with st := { s.st with rel_e := false } }, [ln])) ∧
    (startsWithL ((strip_comment ln).map asciiUpper) ['M', '8', '3'] = true →
      rewrite_step cfg s ln =
        ({ s with st := { s.st with rel_e := true } }, [ln])) ∧
    (startsWithL ((strip_comment ln).map asciiUpper) ['G', '1'] = true →
      rewrite_step cfg s ln =
        processG1 cfg s ln ((strip_comment ln).map asciiUpper)) :=
  ⟨rewrite_step_G90 cfg s ln, rewrite_step_G91 cfg s ln,
   rewrite_step_M82 cfg s ln, rewrite_step_M83 cfg s ln,
   rewrite_step_G1 cfg s ln⟩

/-- Witness for `command_kind_by_prefix_of_payload`: the payload `M820` is
treated as `M82` (absolute extrusion accounting) purely by prefix. -/
theorem command_kind_by_prefix_of_payload_witness :
    startsWithL ((strip_comment "M820\n".toList).map asciiUpper)
      ['M', '8', '2'] = true ∧
    rewrite_step cfgSplitCE initLoopState "M820\n".toList =
      ({ initLoopState with
          st := { initLoopState.st with rel_e := false } },
       ["M820\n".toList]) :=
  ⟨by decide,
   (command_kind_by_prefix_of_payload cfgSplitCE initLoopState
     "M820\n".toList).2.2.1 (by decide)⟩
/-! ## C9: whole-file layer-height inference -/

theorem collectHeights_eq_filterMap (lines : List (List Char)) :
    collectHeights lines = lines.filterMap (fun ln =>
      (matchLayerH ln).bind (fun h =>
        if 1 / 100 < h ∧ h < 2 then some h else none)) := by
  induction lines with
  | nil => rfl
  | cons ln rest ih =>
    rw [List.filterMap_cons]
    unfold collectHeights
    cases hm : matchLayerH ln with
    | none => simpa [hm] using ih
    | some h =>
      simp only [hm, Option.some_bind]
      split_ifs with hr
      · dsimp only
        rw [ih]
      · dsimp only
        rw [ih]

/-- C9.  The whole-file layer-height inference collects every `;HEIGHT:`
value in the open interval `(0.01, 2.0)`; with no samples it returns
unknown, with at least 4 samples it returns the median of all samples except
the first, and otherwise the median of all samples; in particular, for the
annotation sequence `[0.2, 0.2, 0.25, 0.25, 0.25]` it returns `0.25`. -/
theorem infer_layer_height_spec :
    (∀ lines : List (List Char),
      (lines.filterMap (fun ln => (matchLayerH ln).bind (fun h =>
          if 1 / 100 < h ∧ h < 2 then some h else none)) = [] →
        infer_layer_height_prusaslicer lines = none) ∧
      (4 ≤ (lines.filterMap (fun ln => (matchLayerH ln).bind (fun h =>
          if 1 / 100 < h ∧ h < 2 then some h else none))).length →
        infer_layer_height_prusaslicer lines =
          some (npMedian ((lines.filterMap (fun ln =>
            (matchLayerH ln).bind (fun h =>
              if 1 / 100 < h ∧ h < 2 then some h else none))).drop 1))) ∧
      (lines.filterMap (fun ln => (matchLayerH ln).bind (fun h =>
          if 1 / 100 < h ∧ h < 2 then some h else none)) ≠ [] →
        (lines.filterMap (fun ln => (matchLayerH ln).bind (fun h =>
          if 1 / 100 < h ∧ h < 2 then some h else none))).length < 4 →
        infer_layer_height_prusaslicer lines =
          some (npMedian (lines.filterMap (fun ln =>
            (matchLayerH ln).bind (fun h =>
              if 1 / 100 < h ∧ h < 2 then some h else none)))))) ∧
    infer_layer_height_prusaslicer
      [";HEIGHT:0.2\n".toList, "G1 X0 Y0\n".toList, ";HEIGHT:0.2\n".toList,
       ";HEIGHT:0.25\n".toList, ";HEIGHT:0.25\n".toList,
       ";HEIGHT:0.25\n".toList] = some (1 / 4) := by
  constructor
  · intro lines
    refine ⟨fun h0 => ?_, fun h4 => ?_, fun hne hlt => ?_⟩
    · unfold infer_layer_height_prusaslicer
      rw [collectHeights_eq_filterMap, h0]
      rfl
    · unfold infer_layer_height_prusaslicer
      rw [collectHeights_eq_filterMap]
      rw [if_neg, if_pos h4]
      intro he
      rw [he] at h4
      simp at h4
    · unfold infer_layer_height_prusaslicer
      rw [collectHeights_eq_filterMap]
      rw [if_neg hne, if_neg (by omega)]
  · decide

/-- Witness for `infer_layer_height_spec`: a single in-range annotation gives
the median of the one collected sample. -/
theorem infer_layer_height_spec_witness :
    ([";HEIGHT:0.5\n".toList].filterMap (fun ln => (matchLayerH ln).bind
        (fun h => if 1 / 100 < h ∧ h < 2 then some h else none)) ≠ []) ∧
    (([";HEIGHT:0.5\n".toList].filterMap (fun ln => (matchLayerH ln).bind
        (fun h => if 1 / 100 < h ∧ h < 2 then some h else none))).length < 4) ∧
    infer_layer_height_prusaslicer [";HEIGHT:0.5\n".toList] =
      some (npMedian ([";HEIGHT:0.5\n".toList].filterMap (fun ln =>
        (matchLayerH ln).bind (fun h =>
          if 1 / 100 < h ∧ h < 2 then some h else none)))) :=
  ⟨by decide, by decide,
   (infer_layer_height_spec.1 [";HEIGHT:0.5\n".toList]).2.2 (by decide)
     (by decide)⟩

/-! ## C6: the shape of emitted rewritten lines -/

theorem emit_submove_shape (proj : Projector) (lz dzm ray : ℚ) (sm : SubMove) :
    emit_submove proj lz dzm ray sm =
      'G' :: '1' :: ' ' :: 'X' :: (fmt_float sm.x ++ ' ' :: 'Y' ::
        (fmt_float sm.y ++ ' ' :: 'Z' ::
          (fmt_float (corrected_z proj lz dzm ray sm.x sm.y) ++ ' ' :: 'E' ::
            (fmt_float sm.e ++
              (match sm.f with
               | some fv => ' ' :: 'F' :: (fmt_float fv ++ ['\n'])
               | none => ['\n']))))) := by
  cases hf : sm.f <;>
    simp [emit_submove, joinSp, hf, List.append_assoc]

theorem rewrite_step_cases (cfg : Config) (s : LoopState) (ln : List Char) :
    (rewrite_step cfg s ln).2 = [ln] ∨
    rewrite_step cfg s ln =
      processG1 cfg s ln ((strip_comment ln).map asciiUpper) := by
  unfold rewrite_step
  cases h1 : matchLayerZ ln with
  | some q => left; rfl
  | none =>
  cases h2 : matchLayerH ln with
  | some q => left; rfl
  | none =>
  cases h3 : matchTYPE ln with
  | some t => left; rfl
  | none =>
  dsimp only
  split_ifs <;> first | (left; rfl) | (right; rfl)

/-- C6 (amended).  Every output line of a rewrite step is either the input
line itself (passthrough) or a rewritten sub-segment line of the form
`G1 X… Y… Z… E…[ F…]` — explicit absolute X and Y of the sub-segment, the
corrected absolute Z (`corrected_z`), and the sub-segment's extrusion delta,
in that order, followed by the feed override exactly when the sub-segment
carries one.  The emitted `E` value is always the relative sub-segment delta
(`e_delta/n`); it agrees with the configured accounting convention in the
canonical relative-extrusion mode, but is *not* re-expressed when the
interpreter is in absolute mode (see the counterexample). -/
theorem emitted_line_carries_xyzef (cfg : Config) (s : LoopState)
    (ln l : List Char) (hl : l ∈ (rewrite_step cfg s ln).2) :
    l = ln ∨
    (let code := (strip_comment ln).map asciiUpper
     let ps := parse_params code
     let st := applyF s.st ps
     let lz := (s.ctx.layer_z.orElse (fun _ => s.last_layer_z)).getD 0
     let lh := s.ctx.layer_h.getD 0
     let dzm := lh * cfg.max_dz_frac
     let ray := cfg.max_ray_dist.getD (lh * (cfg.max_dz_frac + 1))
     ∃ sm ∈ split_extrusion_move st.x st.y
         (resolveAxis st.abs_xyz st.x (getParam ps 'X'))
         (resolveAxis st.abs_xyz st.y (getParam ps 'Y'))
         (match getParam ps 'E' with
          | some v => if st.rel_e then v else v - st.e
          | none => 0)
         cfg.nozzle_diam st.f,
       l = 'G' :: '1' :: ' ' :: 'X' :: (fmt_float sm.x ++ ' ' :: 'Y' ::
         (fmt_float sm.y ++ ' ' :: 'Z' ::
           (fmt_float (corrected_z cfg.proj lz dzm ray sm.x sm.y) ++
             ' ' :: 'E' ::
             (fmt_float sm.e ++
               (match sm.f with
                | some fv => ' ' :: 'F' :: (fmt_float fv ++ ['\n'])
                | none => ['\n'])))))) := by
  rcases rewrite_step_cases cfg s ln with hc | hc
  · rw [hc] at hl
    left
    simpa using hl
  · rw [hc] at hl
    unfold processG1 at hl
    dsimp only at hl
    by_cases hcm : can_modifyB cfg s
        (applyF s.st (parse_params ((strip_comment ln).map asciiUpper)))
        (parse_params ((strip_comment ln).map asciiUpper)) = true
    · rw [if_pos hcm] at hl
      right
      dsimp only
      obtain ⟨sm, hsm, hemit⟩ := List.mem_map.mp hl
      exact ⟨sm, hsm, by rw [← hemit]; exact emit_submove_shape _ _ _ _ _⟩
    · rw [if_neg hcm] at hl
      left
      simpa using hl

/-- Witness for `emitted_line_carries_xyzef` at a passthrough line. -/
theorem emitted_line_carries_xyzef_witness :
    "M83\n".toList ∈ (rewrite_step cfgSplitCE initLoopState "M83\n".toList).2 ∧
    ("M83\n".toList = "M83\n".toList ∨
     (let code := (strip_comment "M83\n".toList).map asciiUpper
      let ps := parse_params code
      let st := applyF initLoopState.st ps
      let lz := (initLoopState.ctx.layer_z.orElse
        (fun _ => initLoopState.last_layer_z)).getD 0
      let lh := initLoopState.ctx.layer_h.getD 0
      let dzm := lh * cfgSplitCE.max_dz_frac
      let ray := cfgSplitCE.max_ray_dist.getD (lh * (cfgSplitCE.max_dz_frac + 1))
      ∃ sm ∈ split_extrusion_move st.x st.y
          (resolveAxis st.abs_xyz st.x (getParam ps 'X'))
          (resolveAxis st.abs_xyz st.y (getParam ps 'Y'))
          (match getParam ps 'E' with
           | some v => if st.rel_e then v else v - st.e
           | none => 0)
          cfgSplitCE.nozzle_diam st.f,
        "M83\n".toList = 'G' :: '1' :: ' ' :: 'X' :: (fmt_float sm.x ++
          ' ' :: 'Y' :: (fmt_float sm.y ++ ' ' :: 'Z' ::
            (fmt_float (corrected_z cfgSplitCE.proj lz dzm ray sm.x sm.y) ++
              ' ' :: 'E' ::
              (fmt_float sm.e ++
                (match sm.f with
                 | some fv => ' ' :: 'F' :: (fmt_float fv ++ ['\n'])
                 | none => ['\n']))))))) :=
  ⟨by decide,
   emitted_line_carries_xyzef cfgSplitCE initLoopState "M83\n".toList
     "M83\n".toList (by decide)⟩

/-- The C6 counterexample input: absolute extrusion accounting (`M82`), the
accumulator primed to 5 by an E-only move, then an eligible move to `E6`
(delta 1). -/
def linesAbsE : List (List Char) :=
  ["M82\n".toList, ";Z:0.45\n".toList, ";HEIGHT:0.25\n".toList,
   ";TYPE:External perimeter\n".toList, "G1 X0 Y0 Z0.45\n".toList,
   "G1 E5\n".toList, "G1 X10 Y0 E6\n".toList]

def cfgNoSplit : Config :=
  { proj := emptyProjector, nozzle_diam := 20, max_dz_frac := 1 / 2,
    include_types := ["External perimeter".toList],
    disable_first_layer := true, max_ray_dist := none }

/-- C6 as stated is false of the code: with the interpreter configured for
absolute extrusion accounting (`M82`) and accumulator 5, the eligible move
`G1 X10 Y0 E6` (material delta 1) is emitted as `E1` — the relative delta —
whereas the configured absolute convention would express that material as
`E6 = 5 + 1` (`convExpressed`); the emitted value `1` differs from it. -/
theorem emitted_E_convention_counterexample :
    (rewrite_prusaslicer_gcode cfgNoSplit linesAbsE).getD 6 [] =
      "G1 X10 Y0 Z0.45 E1\n".toList ∧
    getParam (parse_params
      ((rewrite_prusaslicer_gcode cfgNoSplit linesAbsE).getD 6 [])) 'E' =
      some 1 ∧
    convExpressed false 5 1 = 6 ∧ (1 : ℚ) ≠ 6 := by decide

end AAZ
